import Mathlib

/-!
Shallow embedding of the Quorum contract-extension orchestrator
(`src/extension/backend.go`, the defensive variant, and
`src/unnamed/part_000`, the plain variant).

Each event watcher's per-event handler is embedded as a pure function from
the current registry, the incoming log, and a record of the external
collaborators' responses for that event, to the updated registry together
with a trace of the actions performed (lock acquire/release, registry
mutations, persistence saves, and every external call).  Go's discarded
errors (`x, _ := f()`) are modelled as a returned value together with an
error flag that the handler never reads; an external call that can abort
processing is modelled as an `Option`/`Bool` success field consulted
exactly where the Go code consults `err`.
-/

/-- Ethereum addresses, modelled as natural numbers. -/
abbrev Address := Nat

/-- Node / account identities, modelled as natural numbers. -/
abbrev Identity := Nat

/-- Opaque byte strings (transaction payloads, state dumps, hashes). -/
abbrev Bytes := List Nat

/-- A transaction, as far as the watchers inspect it: only `tx.Data()` is
read (`backend.go` line 124). -/
structure Tx where
  data : Bytes
deriving DecidableEq

/-- A ledger log event: contract address, originating transaction hash,
block hash, and the raw event payload (`foundLog.Address`, `.TxHash`,
`.BlockHash`, `.Data`). -/
structure EthLog where
  address : Address
  txHash : Nat
  blockHash : Nat
  data : Bytes
deriving DecidableEq

/-- The `ExtensionContract` record stored per management-contract address
(`backend.go` lines 120-125). -/
structure ExtensionContract where
  address : Address
  initiator : Identity
  managementContractAddress : Address
  creationData : Bytes
deriving DecidableEq

/-- The in-memory registry `currentContracts : map[common.Address]*ExtensionContract`,
modelled as an association list with at most one binding per key. -/
abbrev Registry := List (Address × ExtensionContract)

/-- Go map lookup `m[a]` (with the `ok` flag given by `Option.isSome`). -/
def regGet (reg : Registry) (a : Address) : Option ExtensionContract :=
  match reg.find? (fun p => p.1 == a) with
  | some p => some p.2
  | none => none

/-- Go map assignment `m[a] = c` (overwrites any previous binding). -/
def regInsert (reg : Registry) (a : Address) (c : ExtensionContract) : Registry :=
  (a, c) :: reg.filter (fun p => !(p.1 == a))

/-- Go map deletion `delete(m, a)`. -/
def regRemove (reg : Registry) (a : Address) : Registry :=
  reg.filter (fun p => !(p.1 == a))

/-- One observable action of a handler: a lock transition, a registry
mutation, a persistence save, or an external call to the ledger client,
the management-contract facade, the account manager, or the confidential
transport (PTM). -/
inductive Call where
  | lockAcquire
  | lockRelease
  | insertRecord
  | removeRecord
  | saveRegistry
  | transactionByHash
  | senderRecover
  | unpackLog
  | isSenderQuery
  | getParticipants
  | contractCaller
  | creatorQuery
  | approveVote
  | existsQuery
  | generateTransactOptions
  | targetRecipientPublicKeyHash
  | receiveKey
  | contractToExtend
  | getStateAtBlock
  | sendState
  | contractTransactor
  | setSharedStateHash
deriving DecidableEq

/-- External responses consumed while processing one creation log
(`watchForNewContracts`, `backend.go` lines 106-158).  `txResult` and
`senderResult` are the values returned by `TransactionByHash` and
`Sender` (zero values when those calls failed); `txLookupFailed` and
`senderFailed` are the discarded errors (`tx, _ := ...`, `from, _ := ...`),
never read by the handler. -/
structure CreationEnv where
  txResult : Tx
  txLookupFailed : Bool
  senderResult : Identity
  senderFailed : Bool
  decodedToExtend : Option Address
  saveOk : Bool
  isSenderResult : Bool
  isSenderFailed : Bool
  participants : Option (List Identity)
  creatorResult : Identity
  voteOk : Bool
deriving DecidableEq

/-- External responses consumed while processing one cancellation log
(`watchForCancelledContracts`).  Only the persistence save can fail; its
error is logged (defensive variant) or discarded (plain variant) and has
no effect on the registry either way. -/
structure CancelEnv where
  saveOk : Bool
deriving DecidableEq

/-- External responses consumed while processing one completion log
(`watchForCompletionEvents`).  Every fallible collaborator response is a
value paired with a success flag; the defensive variant consults the flag
where the Go code checks `err`, the plain variant ignores the flags the Go
code discards with `_`.  `base64DecodeOk` records whether the facade's
returned recipient key hash is valid base64 (the decode itself is a pure
function of that returned string, not a separate external call). -/
structure CompletionEnv where
  callerOk : Bool
  creatorValue : Identity
  creatorOk : Bool
  accountExists : Bool
  participantsValue : List Identity
  participantsOk : Bool
  txOptionsOk : Bool
  recipientHashOk : Bool
  base64DecodeOk : Bool
  receiveValue : Bytes
  receiveOk : Bool
  contractToExtendValue : Address
  contractToExtendOk : Bool
  stateValue : Bytes
  stateOk : Bool
  sendValue : Bytes
  sendOk : Bool
  transactorOk : Bool
  setSharedOk : Bool
deriving DecidableEq

namespace Backend

/-- Per-event handler of the defensive variant's creation watcher
(`src/extension/backend.go` lines 106-158): look up the transaction and its
sender (errors discarded), decode the payload (failure skips the log),
insert the record, save (failure aborts the rest of this event's
processing but keeps the insertion), then, outside the lock, query
`IsSender` and, when true, fetch participants, resolve the creator and
submit the self-approval vote (a participant-fetch failure aborts, a vote
failure is only logged). -/
def watchForNewContracts (reg : Registry) (l : EthLog) (env : CreationEnv) :
    Registry × List Call :=
  let pre := [Call.lockAcquire, Call.transactionByHash, Call.senderRecover, Call.unpackLog]
  match env.decodedToExtend with
  | none => (reg, pre ++ [Call.lockRelease])
  | some toExtend =>
    let newContractExtension : ExtensionContract :=
      { address := toExtend
        initiator := env.senderResult
        managementContractAddress := l.address
        creationData := env.txResult.data }
    let reg1 := regInsert reg l.address newContractExtension
    if env.saveOk = false then
      (reg1, pre ++ [Call.insertRecord, Call.saveRegistry, Call.lockRelease])
    else
      let t1 := pre ++
        [Call.insertRecord, Call.saveRegistry, Call.lockRelease, Call.isSenderQuery]
      if env.isSenderResult = false then (reg1, t1)
      else
        match env.participants with
        | none => (reg1, t1 ++ [Call.getParticipants])
        | some _ =>
          (reg1, t1 ++
            [Call.getParticipants, Call.contractCaller, Call.creatorQuery, Call.approveVote])

/-- Per-event handler of the defensive variant's cancellation watcher
(`src/extension/backend.go` lines 184-192): under the lock, if a record
exists for the log's address, delete it and save (a save failure is logged
but rolls nothing back); absence of a record is a no-op. -/
def watchForCancelledContracts (reg : Registry) (l : EthLog) (_env : CancelEnv) :
    Registry × List Call :=
  match regGet reg l.address with
  | some _ =>
    (regRemove reg l.address,
      [Call.lockAcquire, Call.removeRecord, Call.saveRegistry, Call.lockRelease])
  | none => (reg, [Call.lockAcquire, Call.lockRelease])

/-- Per-event handler of the defensive variant's completion watcher
(`src/extension/backend.go` lines 215-311): the whole body runs under the
lock; a missing registry record ignores the event, and every subsequent
failing step (`Caller`, `Creator`, the account-manager existence check,
`GetParticipants`, `GenerateTransactOptions`,
`TargetRecipientPublicKeyHash`, the base64 decode, `Receive`,
`ContractToExtend`, the state fetch, `Send`, `Transactor`,
`SetSharedStateHash`) returns from the closure, performing none of the
later calls.  The registry is never mutated. -/
def watchForCompletionEvents (reg : Registry) (l : EthLog) (env : CompletionEnv) :
    Registry × List Call :=
  let body : List Call :=
    match regGet reg l.address with
    | none => []
    | some _ =>
      Call.contractCaller ::
      (if env.callerOk = false then [] else
        Call.creatorQuery ::
        (if env.creatorOk = false then [] else
          Call.existsQuery ::
          (if env.accountExists = false then [] else
            Call.getParticipants ::
            (if env.participantsOk = false then [] else
              Call.generateTransactOptions ::
              (if env.txOptionsOk = false then [] else
                Call.targetRecipientPublicKeyHash ::
                (if env.recipientHashOk = false then [] else
                  (if env.base64DecodeOk = false then [] else
                    Call.receiveKey ::
                    (if env.receiveOk = false then [] else
                      Call.contractToExtend ::
                      (if env.contractToExtendOk = false then [] else
                        Call.getStateAtBlock ::
                        (if env.stateOk = false then [] else
                          Call.sendState ::
                          (if env.sendOk = false then [] else
                            Call.contractTransactor ::
                            (if env.transactorOk = false then [] else
                              [Call.setSharedStateHash]))))))))))))
  (reg, Call.lockAcquire :: body ++ [Call.lockRelease])

end Backend

namespace Plain

/-- Per-event handler of the plain variant's creation watcher
(`src/unnamed/part_000` lines 106-159); it performs the same steps as the
defensive variant's, submitting the self-approval vote through
`VoteOnContract` instead of `ApproveContractExtension`. -/
def watchForNewContracts (reg : Registry) (l : EthLog) (env : CreationEnv) :
    Registry × List Call :=
  let pre := [Call.lockAcquire, Call.transactionByHash, Call.senderRecover, Call.unpackLog]
  match env.decodedToExtend with
  | none => (reg, pre ++ [Call.lockRelease])
  | some toExtend =>
    let newContractExtension : ExtensionContract :=
      { address := toExtend
        initiator := env.senderResult
        managementContractAddress := l.address
        creationData := env.txResult.data }
    let reg1 := regInsert reg l.address newContractExtension
    if env.saveOk = false then
      (reg1, pre ++ [Call.insertRecord, Call.saveRegistry, Call.lockRelease])
    else
      let t1 := pre ++
        [Call.insertRecord, Call.saveRegistry, Call.lockRelease, Call.isSenderQuery]
      if env.isSenderResult = false then (reg1, t1)
      else
        match env.participants with
        | none => (reg1, t1 ++ [Call.getParticipants])
        | some _ =>
          (reg1, t1 ++
            [Call.getParticipants, Call.contractCaller, Call.creatorQuery, Call.approveVote])

/-- Per-event handler of the plain variant's cancellation watcher
(`src/unnamed/part_000` lines 185-191): identical to the defensive
variant's except that the save error is discarded rather than logged. -/
def watchForCancelledContracts (reg : Registry) (l : EthLog) (_env : CancelEnv) :
    Registry × List Call :=
  match regGet reg l.address with
  | some _ =>
    (regRemove reg l.address,
      [Call.lockAcquire, Call.removeRecord, Call.saveRegistry, Call.lockRelease])
  | none => (reg, [Call.lockAcquire, Call.lockRelease])

/-- Per-event handler of the plain variant's completion watcher
(`src/unnamed/part_000` lines 214-258): under the lock, a missing record
ignores the event; `Caller` and `Creator` errors are discarded; a false
account-manager existence check or a `GetParticipants` failure aborts; all
later errors (`GenerateTransactOptions`, `TargetRecipientPublicKeyHash`,
the base64 decode, `Receive`, `ContractToExtend`, the state fetch, `Send`,
`Transactor`, `SetSharedStateHash`) are discarded with `_`, so every later
call is still performed with the zero values.  The registry is never
mutated. -/
def watchForCompletionEvents (reg : Registry) (l : EthLog) (env : CompletionEnv) :
    Registry × List Call :=
  let body : List Call :=
    match regGet reg l.address with
    | none => []
    | some _ =>
      [Call.contractCaller, Call.creatorQuery, Call.existsQuery] ++
      (if env.accountExists = false then [] else
        Call.getParticipants ::
        (if env.participantsOk = false then [] else
          [Call.generateTransactOptions, Call.targetRecipientPublicKeyHash,
            Call.receiveKey, Call.contractToExtend, Call.getStateAtBlock,
            Call.sendState, Call.contractTransactor, Call.setSharedStateHash]))
  (reg, Call.lockAcquire :: body ++ [Call.lockRelease])

end Plain

/-- One delivered ledger log together with the external responses its
handler will consume. -/
inductive WatchEvent where
  | creation (l : EthLog) (env : CreationEnv)
  | cancellation (l : EthLog) (env : CancelEnv)
  | completion (l : EthLog) (env : CompletionEnv)
deriving DecidableEq

/-- The management-contract address a delivered log refers to. -/
def WatchEvent.address : WatchEvent → Address
  | .creation l _ => l.address
  | .cancellation l _ => l.address
  | .completion l _ => l.address

/-- Whether the event is a completion ("ready to share state") event. -/
def WatchEvent.isCompletion : WatchEvent → Bool
  | .completion _ _ => true
  | _ => false

/-- Dispatch one event to the defensive variant's handler. -/
def Backend.step (reg : Registry) : WatchEvent → Registry × List Call
  | .creation l env => Backend.watchForNewContracts reg l env
  | .cancellation l env => Backend.watchForCancelledContracts reg l env
  | .completion l env => Backend.watchForCompletionEvents reg l env

/-- Process a sequence of delivered events with the defensive variant,
returning the final registry. -/
def Backend.run (reg : Registry) : List WatchEvent → Registry
  | [] => reg
  | e :: es => Backend.run (Backend.step reg e).1 es

/-- Dispatch one event to the plain variant's handler. -/
def Plain.step (reg : Registry) : WatchEvent → Registry × List Call
  | .creation l env => Plain.watchForNewContracts reg l env
  | .cancellation l env => Plain.watchForCancelledContracts reg l env
  | .completion l env => Plain.watchForCompletionEvents reg l env

/-- Process a sequence of delivered events with the plain variant,
returning the final registry. -/
def Plain.run (reg : Registry) : List WatchEvent → Registry
  | [] => reg
  | e :: es => Plain.run (Plain.step reg e).1 es

/-- The full sequence of state-share protocol calls a completion handler
can perform after finding the registry record, in source order.  Each
handler's trace (between the lock actions) is a prefix of this list. -/
def stateShareCalls : List Call :=
  [Call.contractCaller, Call.creatorQuery, Call.existsQuery, Call.getParticipants,
    Call.generateTransactOptions, Call.targetRecipientPublicKeyHash, Call.receiveKey,
    Call.contractToExtend, Call.getStateAtBlock, Call.sendState,
    Call.contractTransactor, Call.setSharedStateHash]

/-- How many of `stateShareCalls` the defensive completion handler
performs, given the collaborators' responses: the first failing check
truncates the protocol right after its own call. -/
def stateShareDepth (env : CompletionEnv) : Nat :=
  if env.callerOk = false then 1
  else if env.creatorOk = false then 2
  else if env.accountExists = false then 3
  else if env.participantsOk = false then 4
  else if env.txOptionsOk = false then 5
  else if env.recipientHashOk = false then 6
  else if env.base64DecodeOk = false then 6
  else if env.receiveOk = false then 7
  else if env.contractToExtendOk = false then 8
  else if env.stateOk = false then 9
  else if env.sendOk = false then 10
  else if env.transactorOk = false then 11
  else 12

/-- How many of `stateShareCalls` the plain completion handler performs:
only the account-existence check and the participant fetch can truncate
the protocol; every later failure is discarded. -/
def plainShareDepth (env : CompletionEnv) : Nat :=
  if env.accountExists = false then 3
  else if env.participantsOk = false then 4
  else 12

/-- Spec-side predicate for the registry invariant: starting from presence
state `b` for the address, the "created and not yet cancelled" rule after
a sequence of events — a successfully decoded creation makes the record
present, a cancellation makes it absent, everything else leaves it
unchanged. -/
def createdNotCancelled (b : Bool) : List WatchEvent → Bool
  | [] => b
  | WatchEvent.creation _ env :: es =>
      createdNotCancelled (if env.decodedToExtend.isSome then true else b) es
  | WatchEvent.cancellation _ _ :: es => createdNotCancelled false es
  | WatchEvent.completion _ _ :: es => createdNotCancelled b es

/-- Spec-side trace predicate: a `saveRegistry` action occurs before the
next `lockRelease` action (false if the lock is released, or the trace
ends, without a save). -/
def saveBeforeRelease : List Call → Bool
  | [] => false
  | c :: rest =>
      if c = Call.saveRegistry then true
      else if c = Call.lockRelease then false
      else saveBeforeRelease rest

/-- Spec-side trace predicate: every registry mutation (`insertRecord` or
`removeRecord`) is followed by a `saveRegistry` before the lock guarding
the registry is next released. -/
def mutationsSaved : List Call → Bool
  | [] => true
  | c :: rest =>
      (if c = Call.insertRecord ∨ c = Call.removeRecord
        then saveBeforeRelease rest else true)
      && mutationsSaved rest

/-- A sample log used by the concrete witnesses below. -/
def sampleLog : EthLog :=
  { address := 7, txHash := 21, blockHash := 3, data := [1, 2] }

/-- A sample registry record for `sampleLog.address`, as the creation
handler would build it. -/
def sampleRecord : ExtensionContract :=
  { address := 5, initiator := 9, managementContractAddress := 7, creationData := [4] }

/-- A sample registry holding `sampleRecord` under `sampleLog.address`. -/
def sampleRegistry : Registry := [(7, sampleRecord)]

/-- Creation-event responses where everything succeeds and the node is the
original sender. -/
def sampleCreationEnv : CreationEnv :=
  { txResult := { data := [4] }
    txLookupFailed := false
    senderResult := 9
    senderFailed := false
    decodedToExtend := some 5
    saveOk := true
    isSenderResult := true
    isSenderFailed := false
    participants := some [11, 12]
    creatorResult := 13
    voteOk := true }

/-- Creation-event responses where the payload decodes but the persistence
save fails. -/
def sampleSaveFailEnv : CreationEnv :=
  { sampleCreationEnv with saveOk := false }

/-- Creation-event responses where the node is the original sender but the
participant fetch fails. -/
def sampleNoPartiesEnv : CreationEnv :=
  { sampleCreationEnv with participants := none }

/-- Completion-event responses where every collaborator call succeeds. -/
def sampleCompletionEnv : CompletionEnv :=
  { callerOk := true
    creatorValue := 13
    creatorOk := true
    accountExists := true
    participantsValue := [11, 12]
    participantsOk := true
    txOptionsOk := true
    recipientHashOk := true
    base64DecodeOk := true
    receiveValue := [8]
    receiveOk := true
    contractToExtendValue := 5
    contractToExtendOk := true
    stateValue := [6, 6]
    stateOk := true
    sendValue := [9, 9]
    sendOk := true
    transactorOk := true
    setSharedOk := true }

/-- Completion-event responses where the confidential transport's
`Receive` call fails and everything else succeeds. -/
def sampleReceiveFailEnv : CompletionEnv :=
  { sampleCompletionEnv with receiveOk := false }

/-- Completion-event responses where the local node lacks credentials for
the resolved creator. -/
def sampleNoAccountEnv : CompletionEnv :=
  { sampleCompletionEnv with accountExists := false }

/-- Looking up the key just inserted returns the inserted record. -/
theorem regGet_regInsert_self (reg : Registry) (a : Address) (c : ExtensionContract) :
    regGet (regInsert reg a c) a = some c := by
  simp [regGet, regInsert]

/-- Looking up the key just removed returns nothing. -/
theorem regGet_regRemove_self (reg : Registry) (a : Address) :
    regGet (regRemove reg a) a = none := by
  have h : (reg.filter (fun p => !(p.1 == a))).find? (fun p => p.1 == a) = none := by
    rw [List.find?_eq_none]
    intro x hx
    rcases List.mem_filter.mp hx with ⟨_, hpa⟩
    simpa using hpa
  simp [regGet, regRemove, h]

/-- A shorter take of the same list is a subset of a longer one. -/
theorem take_mono_subset {α : Type} {m n : Nat} (h : m ≤ n) (l : List α) :
    l.take m ⊆ l.take n := by
  intro x hx
  have heq : l.take m = (l.take n).take m := by
    rw [List.take_take, Nat.min_eq_left h]
  rw [heq] at hx
  exact List.take_subset _ _ hx

/-- The defensive completion handler's trace is the lock actions around a
prefix of `stateShareCalls`, of length `stateShareDepth env`, when the
record is present, and the bare lock actions otherwise. -/
theorem backend_completion_trace (reg : Registry) (l : EthLog) (env : CompletionEnv) :
    (Backend.watchForCompletionEvents reg l env).2 =
      Call.lockAcquire ::
        ((match regGet reg l.address with
          | none => ([] : List Call)
          | some _ => stateShareCalls.take (stateShareDepth env)) ++ [Call.lockRelease]) := by
  unfold Backend.watchForCompletionEvents
  cases hr : regGet reg l.address
  · rfl
  · rcases env with ⟨co, crv, cro, ae, pv, po, txo, rho, bo, rv, rvo, cev, ceo,
      sv, sto, sdv, sdo, tro, sso⟩
    cases co
    · rfl
    ·
      cases cro
      · rfl
      ·
        cases ae
        · rfl
        ·
          cases po
          · rfl
          ·
            cases txo
            · rfl
            ·
              cases rho
              · rfl
              ·
                cases bo
                · rfl
                ·
                  cases rvo
                  · rfl
                  ·
                    cases ceo
                    · rfl
                    ·
                      cases sto
                      · rfl
                      ·
                        cases sdo
                        · rfl
                        ·
                          cases tro
                          · rfl
                          · rfl

/-- The plain completion handler's trace is the lock actions around a
prefix of `stateShareCalls`, of length `plainShareDepth env`, when the
record is present, and the bare lock actions otherwise. -/
theorem plain_completion_trace (reg : Registry) (l : EthLog) (env : CompletionEnv) :
    (Plain.watchForCompletionEvents reg l env).2 =
      Call.lockAcquire ::
        ((match regGet reg l.address with
          | none => ([] : List Call)
          | some _ => stateShareCalls.take (plainShareDepth env)) ++ [Call.lockRelease]) := by
  unfold Plain.watchForCompletionEvents
  cases hr : regGet reg l.address
  · rfl
  · rcases env with ⟨co, crv, cro, ae, pv, po, txo, rho, bo, rv, rvo, cev, ceo,
      sv, sto, sdv, sdo, tro, sso⟩
    cases ae
    · rfl
    ·
      cases po
      · rfl
      · rfl

/-- The defensive completion handler performs at most the full protocol. -/
theorem stateShareDepth_le (env : CompletionEnv) : stateShareDepth env ≤ 12 := by
  rcases env with ⟨co, crv, cro, ae, pv, po, txo, rho, bo, rv, rvo, cev, ceo,
    sv, sto, sdv, sdo, tro, sso⟩
  cases co
  · norm_num [stateShareDepth]
  ·
    cases cro
    · norm_num [stateShareDepth]
    ·
      cases ae
      · norm_num [stateShareDepth]
      ·
        cases po
        · norm_num [stateShareDepth]
        ·
          cases txo
          · norm_num [stateShareDepth]
          ·
            cases rho
            · norm_num [stateShareDepth]
            ·
              cases bo
              · norm_num [stateShareDepth]
              ·
                cases rvo
                · norm_num [stateShareDepth]
                ·
                  cases ceo
                  · norm_num [stateShareDepth]
                  ·
                    cases sto
                    · norm_num [stateShareDepth]
                    ·
                      cases sdo
                      · norm_num [stateShareDepth]
                      ·
                        cases tro
                        · norm_num [stateShareDepth]
                        · norm_num [stateShareDepth]

/-- A call that is neither a lock action nor within the first `k` protocol
calls is absent from the defensive completion handler's trace whenever the
handler's depth is at most `k`. -/
theorem backend_completion_notMem (reg : Registry) (l : EthLog) (env : CompletionEnv)
    (c : Call) (k : Nat) (hk : stateShareDepth env ≤ k)
    (hc : c ∉ stateShareCalls.take k)
    (hla : c ≠ Call.lockAcquire) (hlr : c ≠ Call.lockRelease) :
    c ∉ (Backend.watchForCompletionEvents reg l env).2 := by
  rw [backend_completion_trace]
  intro hmem
  rcases List.mem_cons.mp hmem with h | h
  · exact hla h
  rcases List.mem_append.mp h with h | h
  · cases hr : regGet reg l.address <;> rw [hr] at h
    · simp at h
    · exact hc (take_mono_subset hk stateShareCalls h)
  · exact hlr (by simpa using h)

/-- A call that is neither a lock action nor within the first `k` protocol
calls is absent from the plain completion handler's trace whenever the
handler's depth is at most `k`. -/
theorem plain_completion_notMem (reg : Registry) (l : EthLog) (env : CompletionEnv)
    (c : Call) (k : Nat) (hk : plainShareDepth env ≤ k)
    (hc : c ∉ stateShareCalls.take k)
    (hla : c ≠ Call.lockAcquire) (hlr : c ≠ Call.lockRelease) :
    c ∉ (Plain.watchForCompletionEvents reg l env).2 := by
  rw [plain_completion_trace]
  intro hmem
  rcases List.mem_cons.mp hmem with h | h
  · exact hla h
  rcases List.mem_append.mp h with h | h
  · cases hr : regGet reg l.address <;> rw [hr] at h
    · simp at h
    · exact hc (take_mono_subset hk stateShareCalls h)
  · exact hlr (by simpa using h)

/-- Depth bounds for the defensive completion handler: each failing
response truncates the protocol right after the failing step's own call. -/
theorem stateShareDepth_bound (env : CompletionEnv) :
    (env.callerOk = false → stateShareDepth env ≤ 1) ∧
    (env.creatorOk = false → stateShareDepth env ≤ 2) ∧
    (env.accountExists = false → stateShareDepth env ≤ 3) ∧
    (env.participantsOk = false → stateShareDepth env ≤ 4) ∧
    (env.txOptionsOk = false → stateShareDepth env ≤ 5) ∧
    (env.recipientHashOk = false → stateShareDepth env ≤ 6) ∧
    (env.base64DecodeOk = false → stateShareDepth env ≤ 6) ∧
    (env.receiveOk = false → stateShareDepth env ≤ 7) ∧
    (env.contractToExtendOk = false → stateShareDepth env ≤ 8) ∧
    (env.stateOk = false → stateShareDepth env ≤ 9) ∧
    (env.sendOk = false → stateShareDepth env ≤ 10) ∧
    (env.transactorOk = false → stateShareDepth env ≤ 11) := by
  rcases env with ⟨co, crv, cro, ae, pv, po, txo, rho, bo, rv, rvo, cev, ceo,
    sv, sto, sdv, sdo, tro, sso⟩
  cases co
  · norm_num [stateShareDepth]
  ·
    cases cro
    · norm_num [stateShareDepth]
    ·
      cases ae
      · norm_num [stateShareDepth]
      ·
        cases po
        · norm_num [stateShareDepth]
        ·
          cases txo
          · norm_num [stateShareDepth]
          ·
            cases rho
            · norm_num [stateShareDepth]
            ·
              cases bo
              · norm_num [stateShareDepth]
              ·
                cases rvo
                · norm_num [stateShareDepth]
                ·
                  cases ceo
                  · norm_num [stateShareDepth]
                  ·
                    cases sto
                    · norm_num [stateShareDepth]
                    ·
                      cases sdo
                      · norm_num [stateShareDepth]
                      ·
                        cases tro
                        · norm_num [stateShareDepth]
                        · norm_num [stateShareDepth]

/-- Depth facts for the plain completion handler: only the two consulted
checks truncate; when both pass, the full protocol runs. -/
theorem plainShareDepth_bound (env : CompletionEnv) :
    (env.accountExists = false → plainShareDepth env ≤ 3) ∧
    (env.participantsOk = false → plainShareDepth env ≤ 4) ∧
    plainShareDepth env ≤ 12 ∧
    (env.accountExists = true → env.participantsOk = true → plainShareDepth env = 12) := by
  rcases env with ⟨co, crv, cro, ae, pv, po, txo, rho, bo, rv, rvo, cev, ceo,
    sv, sto, sdv, sdo, tro, sso⟩
  cases ae
  · norm_num [plainShareDepth]
  ·
    cases po
    · norm_num [plainShareDepth]
    · norm_num [plainShareDepth]

/-- The registry after the creation handler: unchanged if the payload does
not decode, otherwise the built record is stored under the log's address
(whatever the other responses were). -/
theorem backend_creation_registry (reg : Registry) (l : EthLog) (env : CreationEnv) :
    (Backend.watchForNewContracts reg l env).1 =
      match env.decodedToExtend with
      | none => reg
      | some toExtend => regInsert reg l.address
          { address := toExtend
            initiator := env.senderResult
            managementContractAddress := l.address
            creationData := env.txResult.data } := by
  rcases env with ⟨tx, tlf, snd, sndf, dte, svo, iso, isf, parts, crr, vok⟩
  unfold Backend.watchForNewContracts
  cases dte
  · rfl
  ·
    cases svo
    · rfl
    ·
      cases iso
      · rfl
      ·
        cases parts
        · rfl
        · rfl

/-- Per event, both variants compute the same new registry. -/
theorem step_fst_eq (reg : Registry) (e : WatchEvent) :
    (Backend.step reg e).1 = (Plain.step reg e).1 := by
  cases e with
  | creation l env => rfl
  | cancellation l env => rfl
  | completion l env => rfl

/-- Over any event sequence, both variants compute the same registry. -/
theorem run_eq (reg : Registry) (es : List WatchEvent) :
    Backend.run reg es = Plain.run reg es := by
  induction es generalizing reg with
  | nil => rfl
  | cons e es ih =>
    show Backend.run (Backend.step reg e).1 es = Plain.run (Plain.step reg e).1 es
    rw [step_fst_eq]
    exact ih _

/-- A trace without registry mutations vacuously satisfies the
mutation-followed-by-save property. -/
theorem mutationsSaved_of_no_mutation (t : List Call)
    (hi : Call.insertRecord ∉ t) (hrm : Call.removeRecord ∉ t) :
    mutationsSaved t = true := by
  induction t with
  | nil => rfl
  | cons c rest ih =>
    have hi' : Call.insertRecord ∉ rest := fun h => hi (List.mem_cons_of_mem c h)
    have hrm' : Call.removeRecord ∉ rest := fun h => hrm (List.mem_cons_of_mem c h)
    have hc : ¬(c = Call.insertRecord ∨ c = Call.removeRecord) := by
      rintro (rfl | rfl)
      · exact hi (List.mem_cons_self _ _)
      · exact hrm (List.mem_cons_self _ _)
    simp [mutationsSaved, hc, ih hi' hrm']

/-- Invariant of the defensive variant's run: for events all addressed to
`a`, the record's presence after the run equals the "created and not yet
cancelled" rule applied to the starting presence. -/
theorem backend_run_open (es : List WatchEvent) (a : Address)
    (hall : ∀ e ∈ es, WatchEvent.address e = a) :
    ∀ reg : Registry,
      (regGet (Backend.run reg es) a).isSome =
        createdNotCancelled ((regGet reg a).isSome) es := by
  induction es with
  | nil => intro reg; rfl
  | cons e es ih =>
    intro reg
    have he : WatchEvent.address e = a := hall e (List.mem_cons_self e es)
    have hall' : ∀ e' ∈ es, WatchEvent.address e' = a :=
      fun e' h' => hall e' (List.mem_cons_of_mem e h')
    cases e with
    | creation l env =>
      have hl : l.address = a := he
      show (regGet (Backend.run (Backend.step reg (.creation l env)).1 es) a).isSome = _
      rcases henv : env.decodedToExtend with _ | t
      · have hstep : (Backend.step reg (.creation l env)).1 = reg := by
          show (Backend.watchForNewContracts reg l env).1 = reg
          rw [backend_creation_registry, henv]
        rw [hstep, ih hall']
        simp [createdNotCancelled, henv]
      · have hstep : (Backend.step reg (.creation l env)).1 =
            regInsert reg l.address
              { address := t
                initiator := env.senderResult
                managementContractAddress := l.address
                creationData := env.txResult.data } := by
          show (Backend.watchForNewContracts reg l env).1 = _
          rw [backend_creation_registry, henv]
        rw [hstep, ih hall']
        rw [hl] at *
        simp [createdNotCancelled, henv, regGet_regInsert_self]
    | cancellation l env =>
      have hl : l.address = a := he
      show (regGet (Backend.run (Backend.step reg (.cancellation l env)).1 es) a).isSome = _
      rcases hr : regGet reg l.address with _ | c
      · have hstep : (Backend.step reg (.cancellation l env)).1 = reg := by
          show (Backend.watchForCancelledContracts reg l env).1 = reg
          unfold Backend.watchForCancelledContracts
          rw [hr]
        rw [hstep, ih hall']
        rw [hl] at hr
        simp [createdNotCancelled, hr]
      · have hstep : (Backend.step reg (.cancellation l env)).1 = regRemove reg l.address := by
          show (Backend.watchForCancelledContracts reg l env).1 = _
          unfold Backend.watchForCancelledContracts
          rw [hr]
        rw [hstep, ih hall']
        rw [hl] at *
        simp [createdNotCancelled, regGet_regRemove_self]
    | completion l env =>
      show (regGet (Backend.run (Backend.step reg (.completion l env)).1 es) a).isSome = _
      have hstep : (Backend.step reg (.completion l env)).1 = reg := rfl
      rw [hstep, ih hall']
      simp [createdNotCancelled]
/-- C3 (amended): a failure in the state-share protocol aborts the rest of
the event only in the defensive variant (`src/extension/backend.go`), where
each failing step implies that the subsequent external calls are absent
from the trace, and the loop continues with the next event.  In the plain
variant (`src/unnamed/part_000`) only the credentials check and the
participant fetch abort; every later failure (for example of `Receive`) is
discarded, and the remaining calls, including the confidential-transport
Send and SetSharedStateHash, are still performed. -/
theorem completion_failure_aborts_by_variant (reg : Registry) (l : EthLog) (env : CompletionEnv) :
    (env.callerOk = false →
      Call.getParticipants ∉ (Backend.watchForCompletionEvents reg l env).2 ∧
      Call.receiveKey ∉ (Backend.watchForCompletionEvents reg l env).2 ∧
      Call.getStateAtBlock ∉ (Backend.watchForCompletionEvents reg l env).2 ∧
      Call.sendState ∉ (Backend.watchForCompletionEvents reg l env).2 ∧
      Call.setSharedStateHash ∉ (Backend.watchForCompletionEvents reg l env).2) ∧
    (env.creatorOk = false →
      Call.getParticipants ∉ (Backend.watchForCompletionEvents reg l env).2 ∧
      Call.receiveKey ∉ (Backend.watchForCompletionEvents reg l env).2 ∧
      Call.getStateAtBlock ∉ (Backend.watchForCompletionEvents reg l env).2 ∧
      Call.sendState ∉ (Backend.watchForCompletionEvents reg l env).2 ∧
      Call.setSharedStateHash ∉ (Backend.watchForCompletionEvents reg l env).2) ∧
    (env.accountExists = false →
      Call.getParticipants ∉ (Backend.watchForCompletionEvents reg l env).2 ∧
      Call.receiveKey ∉ (Backend.watchForCompletionEvents reg l env).2 ∧
      Call.getStateAtBlock ∉ (Backend.watchForCompletionEvents reg l env).2 ∧
      Call.sendState ∉ (Backend.watchForCompletionEvents reg l env).2 ∧
      Call.setSharedStateHash ∉ (Backend.watchForCompletionEvents reg l env).2) ∧
    (env.participantsOk = false →
      Call.receiveKey ∉ (Backend.watchForCompletionEvents reg l env).2 ∧
      Call.getStateAtBlock ∉ (Backend.watchForCompletionEvents reg l env).2 ∧
      Call.sendState ∉ (Backend.watchForCompletionEvents reg l env).2 ∧
      Call.setSharedStateHash ∉ (Backend.watchForCompletionEvents reg l env).2) ∧
    (env.txOptionsOk = false →
      Call.receiveKey ∉ (Backend.watchForCompletionEvents reg l env).2 ∧
      Call.getStateAtBlock ∉ (Backend.watchForCompletionEvents reg l env).2 ∧
      Call.sendState ∉ (Backend.watchForCompletionEvents reg l env).2 ∧
      Call.setSharedStateHash ∉ (Backend.watchForCompletionEvents reg l env).2) ∧
    (env.recipientHashOk = false →
      Call.receiveKey ∉ (Backend.watchForCompletionEvents reg l env).2 ∧
      Call.getStateAtBlock ∉ (Backend.watchForCompletionEvents reg l env).2 ∧
      Call.sendState ∉ (Backend.watchForCompletionEvents reg l env).2 ∧
      Call.setSharedStateHash ∉ (Backend.watchForCompletionEvents reg l env).2) ∧
    (env.base64DecodeOk = false →
      Call.receiveKey ∉ (Backend.watchForCompletionEvents reg l env).2 ∧
      Call.getStateAtBlock ∉ (Backend.watchForCompletionEvents reg l env).2 ∧
      Call.sendState ∉ (Backend.watchForCompletionEvents reg l env).2 ∧
      Call.setSharedStateHash ∉ (Backend.watchForCompletionEvents reg l env).2) ∧
    (env.receiveOk = false →
      Call.getStateAtBlock ∉ (Backend.watchForCompletionEvents reg l env).2 ∧
      Call.sendState ∉ (Backend.watchForCompletionEvents reg l env).2 ∧
      Call.setSharedStateHash ∉ (Backend.watchForCompletionEvents reg l env).2) ∧
    (env.contractToExtendOk = false →
      Call.getStateAtBlock ∉ (Backend.watchForCompletionEvents reg l env).2 ∧
      Call.sendState ∉ (Backend.watchForCompletionEvents reg l env).2 ∧
      Call.setSharedStateHash ∉ (Backend.watchForCompletionEvents reg l env).2) ∧
    (env.stateOk = false →
      Call.sendState ∉ (Backend.watchForCompletionEvents reg l env).2 ∧
      Call.setSharedStateHash ∉ (Backend.watchForCompletionEvents reg l env).2) ∧
    (env.sendOk = false →
      Call.setSharedStateHash ∉ (Backend.watchForCompletionEvents reg l env).2) ∧
    (env.transactorOk = false →
      Call.setSharedStateHash ∉ (Backend.watchForCompletionEvents reg l env).2) ∧
    (env.accountExists = false →
      Call.getParticipants ∉ (Plain.watchForCompletionEvents reg l env).2 ∧
      Call.receiveKey ∉ (Plain.watchForCompletionEvents reg l env).2 ∧
      Call.getStateAtBlock ∉ (Plain.watchForCompletionEvents reg l env).2 ∧
      Call.sendState ∉ (Plain.watchForCompletionEvents reg l env).2 ∧
      Call.setSharedStateHash ∉ (Plain.watchForCompletionEvents reg l env).2) ∧
    (env.participantsOk = false →
      Call.receiveKey ∉ (Plain.watchForCompletionEvents reg l env).2 ∧
      Call.getStateAtBlock ∉ (Plain.watchForCompletionEvents reg l env).2 ∧
      Call.sendState ∉ (Plain.watchForCompletionEvents reg l env).2 ∧
      Call.setSharedStateHash ∉ (Plain.watchForCompletionEvents reg l env).2) ∧
    ((regGet reg l.address).isSome = true → env.accountExists = true →
      env.participantsOk = true →
      Call.sendState ∈ (Plain.watchForCompletionEvents reg l env).2 ∧
      Call.setSharedStateHash ∈ (Plain.watchForCompletionEvents reg l env).2) ∧
    (∀ es : List WatchEvent,
      Backend.run reg (WatchEvent.completion l env :: es) = Backend.run reg es) := by
  obtain ⟨b1, b2, b3, b4, b5, b6, b7, b8, b9, b10, b11, b12⟩ := stateShareDepth_bound env
  obtain ⟨p1, p2, p3, p4⟩ := plainShareDepth_bound env
  refine ⟨?_, ?_, ?_, ?_, ?_, ?_, ?_, ?_, ?_, ?_, ?_, ?_, ?_, ?_, ?_, ?_⟩
  · intro h
    exact ⟨backend_completion_notMem reg l env _ 1 (b1 h) (by decide) (by decide) (by decide),
      backend_completion_notMem reg l env _ 1 (b1 h) (by decide) (by decide) (by decide),
      backend_completion_notMem reg l env _ 1 (b1 h) (by decide) (by decide) (by decide),
      backend_completion_notMem reg l env _ 1 (b1 h) (by decide) (by decide) (by decide),
      backend_completion_notMem reg l env _ 1 (b1 h) (by decide) (by decide) (by decide)⟩
  · intro h
    exact ⟨backend_completion_notMem reg l env _ 2 (b2 h) (by decide) (by decide) (by decide),
      backend_completion_notMem reg l env _ 2 (b2 h) (by decide) (by decide) (by decide),
      backend_completion_notMem reg l env _ 2 (b2 h) (by decide) (by decide) (by decide),
      backend_completion_notMem reg l env _ 2 (b2 h) (by decide) (by decide) (by decide),
      backend_completion_notMem reg l env _ 2 (b2 h) (by decide) (by decide) (by decide)⟩
  · intro h
    exact ⟨backend_completion_notMem reg l env _ 3 (b3 h) (by decide) (by decide) (by decide),
      backend_completion_notMem reg l env _ 3 (b3 h) (by decide) (by decide) (by decide),
      backend_completion_notMem reg l env _ 3 (b3 h) (by decide) (by decide) (by decide),
      backend_completion_notMem reg l env _ 3 (b3 h) (by decide) (by decide) (by decide),
      backend_completion_notMem reg l env _ 3 (b3 h) (by decide) (by decide) (by decide)⟩
  · intro h
    exact ⟨backend_completion_notMem reg l env _ 4 (b4 h) (by decide) (by decide) (by decide),
      backend_completion_notMem reg l env _ 4 (b4 h) (by decide) (by decide) (by decide),
      backend_completion_notMem reg l env _ 4 (b4 h) (by decide) (by decide) (by decide),
      backend_completion_notMem reg l env _ 4 (b4 h) (by decide) (by decide) (by decide)⟩
  · intro h
    exact ⟨backend_completion_notMem reg l env _ 5 (b5 h) (by decide) (by decide) (by decide),
      backend_completion_notMem reg l env _ 5 (b5 h) (by decide) (by decide) (by decide),
      backend_completion_notMem reg l env _ 5 (b5 h) (by decide) (by decide) (by decide),
      backend_completion_notMem reg l env _ 5 (b5 h) (by decide) (by decide) (by decide)⟩
  · intro h
    exact ⟨backend_completion_notMem reg l env _ 6 (b6 h) (by decide) (by decide) (by decide),
      backend_completion_notMem reg l env _ 6 (b6 h) (by decide) (by decide) (by decide),
      backend_completion_notMem reg l env _ 6 (b6 h) (by decide) (by decide) (by decide),
      backend_completion_notMem reg l env _ 6 (b6 h) (by decide) (by decide) (by decide)⟩
  · intro h
    exact ⟨backend_completion_notMem reg l env _ 6 (b7 h) (by decide) (by decide) (by decide),
      backend_completion_notMem reg l env _ 6 (b7 h) (by decide) (by decide) (by decide),
      backend_completion_notMem reg l env _ 6 (b7 h) (by decide) (by decide) (by decide),
      backend_completion_notMem reg l env _ 6 (b7 h) (by decide) (by decide) (by decide)⟩
  · intro h
    exact ⟨backend_completion_notMem reg l env _ 7 (b8 h) (by decide) (by decide) (by decide),
      backend_completion_notMem reg l env _ 7 (b8 h) (by decide) (by decide) (by decide),
      backend_completion_notMem reg l env _ 7 (b8 h) (by decide) (by decide) (by decide)⟩
  · intro h
    exact ⟨backend_completion_notMem reg l env _ 8 (b9 h) (by decide) (by decide) (by decide),
      backend_completion_notMem reg l env _ 8 (b9 h) (by decide) (by decide) (by decide),
      backend_completion_notMem reg l env _ 8 (b9 h) (by decide) (by decide) (by decide)⟩
  · intro h
    exact ⟨backend_completion_notMem reg l env _ 9 (b10 h) (by decide) (by decide) (by decide),
      backend_completion_notMem reg l env _ 9 (b10 h) (by decide) (by decide) (by decide)⟩
  · intro h
    exact backend_completion_notMem reg l env _ 10 (b11 h) (by decide) (by decide) (by decide)
  · intro h
    exact backend_completion_notMem reg l env _ 11 (b12 h) (by decide) (by decide) (by decide)
  · intro h
    exact ⟨plain_completion_notMem reg l env _ 3 (p1 h) (by decide) (by decide) (by decide),
      plain_completion_notMem reg l env _ 3 (p1 h) (by decide) (by decide) (by decide),
      plain_completion_notMem reg l env _ 3 (p1 h) (by decide) (by decide) (by decide),
      plain_completion_notMem reg l env _ 3 (p1 h) (by decide) (by decide) (by decide),
      plain_completion_notMem reg l env _ 3 (p1 h) (by decide) (by decide) (by decide)⟩
  · intro h
    exact ⟨plain_completion_notMem reg l env _ 4 (p2 h) (by decide) (by decide) (by decide),
      plain_completion_notMem reg l env _ 4 (p2 h) (by decide) (by decide) (by decide),
      plain_completion_notMem reg l env _ 4 (p2 h) (by decide) (by decide) (by decide),
      plain_completion_notMem reg l env _ 4 (p2 h) (by decide) (by decide) (by decide)⟩
  · intro hrec hae hpo
    obtain ⟨c, hc⟩ := Option.isSome_iff_exists.mp hrec
    constructor <;>
    · simp only [plain_completion_trace, hc, p4 hae hpo]
      decide
  · intro es
    rfl

/-- C3 counterexample: in the plain variant, with the record present, the
credentials check passing and the participant fetch succeeding, a failure
of the confidential transport's Receive (step 5) does not abort the event:
the state fetch, Send and SetSharedStateHash are still performed. -/
theorem completion_plain_proceeds_after_receive_failure :
    sampleReceiveFailEnv.receiveOk = false ∧
    Call.getStateAtBlock ∈
      (Plain.watchForCompletionEvents sampleRegistry sampleLog sampleReceiveFailEnv).2 ∧
    Call.sendState ∈
      (Plain.watchForCompletionEvents sampleRegistry sampleLog sampleReceiveFailEnv).2 ∧
    Call.setSharedStateHash ∈
      (Plain.watchForCompletionEvents sampleRegistry sampleLog sampleReceiveFailEnv).2 := by
  decide

/-- C3 witness: in the defensive variant, a concrete completion event with
a failing Receive performs neither the state fetch nor Send nor
SetSharedStateHash. -/
theorem completion_failure_aborts_by_variant_witness :
    Call.getStateAtBlock ∉
      (Backend.watchForCompletionEvents sampleRegistry sampleLog sampleReceiveFailEnv).2 :=
  ((completion_failure_aborts_by_variant sampleRegistry sampleLog
      sampleReceiveFailEnv).2.2.2.2.2.2.2.1 (by decide)).1

/-- C1: for every sequence of creation and cancellation events delivered
for the same management-contract address, starting from a registry with no
record for it, the registry contains a record keyed by that address if and
only if a creation event whose payload decoded successfully has been
processed and no cancellation event has been processed since — in both
variants. -/
theorem registry_iff_created_not_cancelled (es : List WatchEvent) (a : Address)
    (hall : ∀ e ∈ es, WatchEvent.address e = a ∧ WatchEvent.isCompletion e = false)
    (reg : Registry) (h0 : regGet reg a = none) :
    ((regGet (Backend.run reg es) a).isSome = createdNotCancelled false es) ∧
    ((regGet (Plain.run reg es) a).isSome = createdNotCancelled false es) := by
  have haddr : ∀ e ∈ es, WatchEvent.address e = a := fun e h => (hall e h).1
  have hb := backend_run_open es a haddr reg
  rw [h0] at hb
  simp only [Option.isSome_none] at hb
  exact ⟨hb, by rw [← run_eq]; exact hb⟩

/-- C1 witness: a concrete create-then-cancel sequence for address 7,
starting from the empty registry, matches the spec-side rule (the record
is absent at the end). -/
theorem registry_iff_created_not_cancelled_witness :
    (regGet (Backend.run []
        [WatchEvent.creation sampleLog sampleCreationEnv,
          WatchEvent.cancellation sampleLog { saveOk := true }]) 7).isSome =
      createdNotCancelled false
        [WatchEvent.creation sampleLog sampleCreationEnv,
          WatchEvent.cancellation sampleLog { saveOk := true }] :=
  (registry_iff_created_not_cancelled _ 7 (by decide) [] rfl).1

/-- C2: processing one completion event never mutates the registry in
either variant: the registry is returned unchanged, no insert or remove
action appears in the trace, and the record for the event's address (in
particular after a fully successful state share) is still present
afterwards. -/
theorem completion_never_mutates_registry (reg : Registry) (l : EthLog) (env : CompletionEnv) :
    (Backend.watchForCompletionEvents reg l env).1 = reg ∧
    Call.insertRecord ∉ (Backend.watchForCompletionEvents reg l env).2 ∧
    Call.removeRecord ∉ (Backend.watchForCompletionEvents reg l env).2 ∧
    (Plain.watchForCompletionEvents reg l env).1 = reg ∧
    Call.insertRecord ∉ (Plain.watchForCompletionEvents reg l env).2 ∧
    Call.removeRecord ∉ (Plain.watchForCompletionEvents reg l env).2 ∧
    regGet (Backend.watchForCompletionEvents reg l env).1 l.address = regGet reg l.address := by
  refine ⟨rfl, ?_, ?_, rfl, ?_, ?_, rfl⟩
  · exact backend_completion_notMem reg l env _ 12 (stateShareDepth_le env)
      (by decide) (by decide) (by decide)
  · exact backend_completion_notMem reg l env _ 12 (stateShareDepth_le env)
      (by decide) (by decide) (by decide)
  · exact plain_completion_notMem reg l env _ 12 (plainShareDepth_bound env).2.2.1
      (by decide) (by decide) (by decide)
  · exact plain_completion_notMem reg l env _ 12 (plainShareDepth_bound env).2.2.1
      (by decide) (by decide) (by decide)

/-- C4: for a completion event whose address has a registry record, if the
local node lacks signing credentials for the resolved creator (the
account-manager existence check is false), neither variant performs the
confidential transport's Send or the SetSharedStateHash write. -/
theorem no_send_without_credentials (reg : Registry) (l : EthLog) (env : CompletionEnv)
    (_hrec : (regGet reg l.address).isSome = true)
    (hex : env.accountExists = false) :
    Call.sendState ∉ (Backend.watchForCompletionEvents reg l env).2 ∧
    Call.setSharedStateHash ∉ (Backend.watchForCompletionEvents reg l env).2 ∧
    Call.sendState ∉ (Plain.watchForCompletionEvents reg l env).2 ∧
    Call.setSharedStateHash ∉ (Plain.watchForCompletionEvents reg l env).2 := by
  have hb := (stateShareDepth_bound env).2.2.1 hex
  have hp := (plainShareDepth_bound env).1 hex
  exact ⟨backend_completion_notMem reg l env _ 3 hb (by decide) (by decide) (by decide),
    backend_completion_notMem reg l env _ 3 hb (by decide) (by decide) (by decide),
    plain_completion_notMem reg l env _ 3 hp (by decide) (by decide) (by decide),
    plain_completion_notMem reg l env _ 3 hp (by decide) (by decide) (by decide)⟩

/-- C4 witness: a concrete completion event for a present record with a
failing credentials check performs no Send. -/
theorem no_send_without_credentials_witness :
    Call.sendState ∉
      (Backend.watchForCompletionEvents sampleRegistry sampleLog sampleNoAccountEnv).2 :=
  (no_send_without_credentials sampleRegistry sampleLog sampleNoAccountEnv
    (by decide) (by decide)).1

/-- C6: a completion event whose contract address has no registry record
makes zero external calls in either variant: the trace is just the lock
acquire and release, and the registry is unchanged. -/
theorem unknown_completion_makes_no_calls (reg : Registry) (l : EthLog) (env : CompletionEnv)
    (h : regGet reg l.address = none) :
    (Backend.watchForCompletionEvents reg l env).2 = [Call.lockAcquire, Call.lockRelease] ∧
    (Backend.watchForCompletionEvents reg l env).1 = reg ∧
    (Plain.watchForCompletionEvents reg l env).2 = [Call.lockAcquire, Call.lockRelease] ∧
    (Plain.watchForCompletionEvents reg l env).1 = reg := by
  refine ⟨?_, rfl, ?_, rfl⟩
  · rw [backend_completion_trace, h]
    rfl
  · rw [plain_completion_trace, h]
    rfl

/-- C6 witness: a concrete completion event for an address absent from the
empty registry yields only the lock actions. -/
theorem unknown_completion_makes_no_calls_witness :
    (Backend.watchForCompletionEvents [] sampleLog sampleCompletionEnv).2 =
      [Call.lockAcquire, Call.lockRelease] :=
  (unknown_completion_makes_no_calls [] sampleLog sampleCompletionEnv rfl).1

/-- C10: for every event sequence delivered in the same order with the
same external-collaborator responses, the defensive variant and the plain
variant leave the contract registry in exactly the same final state. -/
theorem variants_same_final_registry (reg : Registry) (es : List WatchEvent) :
    Backend.run reg es = Plain.run reg es :=
  run_eq reg es

/-- C5 (amended): for every creation event, the self-approval vote is
submitted exactly once when the payload decoded, the registry save
succeeded, the is-sender query answered true and the participant fetch
succeeded; it is never submitted otherwise — in particular never when the
is-sender query answers false, but also not when the participant fetch
fails or the save failed.  Both variants behave identically. -/
theorem self_approval_count (reg : Registry) (l : EthLog) (env : CreationEnv) :
    ((Backend.watchForNewContracts reg l env).2.count Call.approveVote =
      if env.decodedToExtend.isSome && env.saveOk && env.isSenderResult
          && env.participants.isSome then 1 else 0) ∧
    ((Plain.watchForNewContracts reg l env).2.count Call.approveVote =
      if env.decodedToExtend.isSome && env.saveOk && env.isSenderResult
          && env.participants.isSome then 1 else 0) := by
  rcases env with ⟨tx, tlf, snd, sndf, dte, svo, iso, isf, parts, crr, vok⟩
  refine ⟨?_, ?_⟩ <;>
    (cases dte <;> cases svo <;> cases iso <;> cases parts <;> rfl)

/-- C5 counterexample: a concrete creation event that decodes, saves, and
whose is-sender query answers true, but whose participant fetch fails,
submits no approval vote — refuting "submitted exactly once whenever the
is-sender query returns true". -/
theorem self_approval_missing_on_participants_failure :
    sampleNoPartiesEnv.decodedToExtend.isSome = true ∧
    sampleNoPartiesEnv.saveOk = true ∧
    sampleNoPartiesEnv.isSenderResult = true ∧
    (Backend.watchForNewContracts [] sampleLog sampleNoPartiesEnv).2.count
      Call.approveVote = 0 := by
  decide

/-- C7: in both variants, every registry mutation (creation insert and
cancellation removal) in an event's trace is followed by a synchronous
persistence save before the exclusive lock is released. -/
theorem mutation_saved_before_unlock (reg : Registry) (e : WatchEvent) :
    mutationsSaved (Backend.step reg e).2 = true ∧
    mutationsSaved (Plain.step reg e).2 = true := by
  cases e with
  | creation l env =>
    rcases env with ⟨tx, tlf, snd, sndf, dte, svo, iso, isf, parts, crr, vok⟩
    refine ⟨?_, ?_⟩ <;>
      (cases dte <;> cases svo <;> cases iso <;> cases parts <;> rfl)
  | cancellation l env =>
    have hb : mutationsSaved (Backend.watchForCancelledContracts reg l env).2 = true := by
      unfold Backend.watchForCancelledContracts
      cases regGet reg l.address <;> rfl
    have hp : mutationsSaved (Plain.watchForCancelledContracts reg l env).2 = true := by
      unfold Plain.watchForCancelledContracts
      cases regGet reg l.address <;> rfl
    exact ⟨hb, hp⟩
  | completion l env =>
    refine ⟨mutationsSaved_of_no_mutation _ ?_ ?_, mutationsSaved_of_no_mutation _ ?_ ?_⟩
    · exact backend_completion_notMem reg l env _ 12 (stateShareDepth_le env)
        (by decide) (by decide) (by decide)
    · exact backend_completion_notMem reg l env _ 12 (stateShareDepth_le env)
        (by decide) (by decide) (by decide)
    · exact plain_completion_notMem reg l env _ 12 (plainShareDepth_bound env).2.2.1
        (by decide) (by decide) (by decide)
    · exact plain_completion_notMem reg l env _ 12 (plainShareDepth_bound env).2.2.1
        (by decide) (by decide) (by decide)

/-- C8: when the save fails right after a creation insertion, the inserted
record stays in the in-memory registry (no rollback), the rest of that
event's processing is skipped (no is-sender query, no vote), and the run
continues with the following events from the mutated registry. -/
theorem save_failure_keeps_insertion (reg : Registry) (l : EthLog) (env : CreationEnv)
    (t : Address) (hdec : env.decodedToExtend = some t) (hsave : env.saveOk = false) :
    regGet (Backend.watchForNewContracts reg l env).1 l.address =
      some { address := t
             initiator := env.senderResult
             managementContractAddress := l.address
             creationData := env.txResult.data } ∧
    Call.isSenderQuery ∉ (Backend.watchForNewContracts reg l env).2 ∧
    Call.approveVote ∉ (Backend.watchForNewContracts reg l env).2 ∧
    ∀ es : List WatchEvent,
      Backend.run reg (WatchEvent.creation l env :: es) =
        Backend.run (Backend.watchForNewContracts reg l env).1 es := by
  have ht : (Backend.watchForNewContracts reg l env).2 =
      [Call.lockAcquire, Call.transactionByHash, Call.senderRecover, Call.unpackLog,
        Call.insertRecord, Call.saveRegistry, Call.lockRelease] := by
    unfold Backend.watchForNewContracts
    rw [hdec, hsave]
    rfl
  refine ⟨?_, ?_, ?_, fun es => rfl⟩
  · rw [backend_creation_registry, hdec]
    exact regGet_regInsert_self reg l.address _
  · rw [ht]; decide
  · rw [ht]; decide

/-- C8 witness: a concrete creation event with a failing save keeps the
inserted record in the registry. -/
theorem save_failure_keeps_insertion_witness :
    regGet (Backend.watchForNewContracts [] sampleLog sampleSaveFailEnv).1
        sampleLog.address =
      some { address := 5, initiator := 9, managementContractAddress := 7,
             creationData := [4] } :=
  (save_failure_keeps_insertion [] sampleLog sampleSaveFailEnv 5 rfl rfl).1

/-- C9: for every creation log, whether a record is inserted depends only
on whether the payload decodes: the discarded transaction-lookup and
sender-recovery errors have no effect on the handler at all, and the
inserted record takes its initiator and creation-data fields from the
(possibly zero/failed) values those calls returned.  The plain variant's
handler is the same function. -/
theorem insertion_depends_only_on_decode (reg : Registry) (l : EthLog) (env : CreationEnv) :
    ((Call.insertRecord ∈ (Backend.watchForNewContracts reg l env).2) ↔
      env.decodedToExtend.isSome = true) ∧
    (env.decodedToExtend = none → (Backend.watchForNewContracts reg l env).1 = reg) ∧
    (∀ t, env.decodedToExtend = some t →
      regGet (Backend.watchForNewContracts reg l env).1 l.address =
        some { address := t
               initiator := env.senderResult
               managementContractAddress := l.address
               creationData := env.txResult.data }) ∧
    (∀ b1 b2, Backend.watchForNewContracts reg l
        { env with txLookupFailed := b1, senderFailed := b2 } =
      Backend.watchForNewContracts reg l env) ∧
    Plain.watchForNewContracts reg l env = Backend.watchForNewContracts reg l env := by
  refine ⟨?_, ?_, ?_, fun b1 b2 => rfl, rfl⟩
  · rcases env with ⟨tx, tlf, snd, sndf, dte, svo, iso, isf, parts, crr, vok⟩
    cases dte <;> cases svo <;> cases iso <;> cases parts <;>
      simp [Backend.watchForNewContracts]
  · intro h
    rw [backend_creation_registry, h]
  · intro t ht
    rw [backend_creation_registry, ht]
    exact regGet_regInsert_self reg l.address _

/-- C9 witness: a concrete decoded creation event inserts the record built
from the returned sender and transaction data. -/
theorem insertion_depends_only_on_decode_witness :
    regGet (Backend.watchForNewContracts [] sampleLog sampleCreationEnv).1
        sampleLog.address =
      some { address := 5, initiator := 9, managementContractAddress := 7,
             creationData := [4] } :=
  (insertion_depends_only_on_decode [] sampleLog sampleCreationEnv).2.2.1 5 rfl
